import Mathlib

set_option linter.unusedVariables false

/-! Shallow embedding of the PSBT wallet orchestration layer
(src/src/wallet/psbtwallet.cpp of gwillen/elements).

The translation unit under verification contains `FillPSBTInputsData`,
`SignPSBT`, `FillPSBTOutputsData`, `FillPSBTData` and `FillPSBT`.  Its
external collaborators (the wallet transaction index and blinding-data
provider, transaction hashing, the confidential-amount verifier
`VerifyAmounts`, the per-input predicates `PSBTInputSigned` and `IsSane`,
the signing provider entry points `SignPSBTInput` and `ProduceSignature`)
live in other translation units; they are abstracted here as oracle
functions gathered in an `Env` structure, so every theorem below is
universally quantified over their behaviour.

Byte strings, scripts, hashes, asset tags and commitments are modelled as
`Nat` / `List Nat`; a confidential field that can be null is an `Option`.
C++ `std::vector` indexing at an out-of-range index (undefined behaviour /
`at` throwing) is modelled totally with `List.getD` at a default element. -/

structure COutPoint where
  hash : Nat
  n : Nat
deriving DecidableEq, Inhabited

structure CTxIn where
  prevout : COutPoint
deriving DecidableEq, Inhabited

/-- A transaction output: explicit-or-committed (confidential) value, asset
and nonce fields, plus the output script.  `none` models a null
confidential field. -/
structure CTxOut where
  nValue : Option Nat
  nAsset : Option Nat
  nNonce : Option Nat
  scriptPubKey : List Nat
deriving DecidableEq, Inhabited

structure CTxOutWitness where
  vchRangeproof : List Nat
  vchSurjectionproof : List Nat
deriving DecidableEq, Inhabited

structure CTxWitness where
  vtxoutwit : List CTxOutWitness
deriving DecidableEq, Inhabited

structure CMutableTransaction where
  vin : List CTxIn
  vout : List CTxOut
  witness : CTxWitness
deriving DecidableEq, Inhabited

/-- Per-input PSBT side-record.  `sig_data` abstracts the accumulated
signature material (final scriptSig / scriptWitness, partial signatures);
the confidential fields mirror the Elements additions. -/
structure PSBTInput where
  non_witness_utxo : Option CMutableTransaction
  witness_utxo : Option CTxOut
  sighash_type : Int
  value : Int
  value_blinding_factor : Nat
  asset : Nat
  asset_blinding_factor : Nat
  sig_data : List Nat
deriving DecidableEq, Inhabited

/-- Per-output PSBT side-record.  `blinding_pubkey_valid` models
`blinding_pubkey.IsValid()`; `meta` abstracts the key-origin /
redeem-script metadata written by the output filler. -/
structure PSBTOutput where
  blinding_pubkey_valid : Bool
  value_commitment : Option Nat
  asset_commitment : Option Nat
  nonce_commitment : Option Nat
  range_proof : List Nat
  surjection_proof : List Nat
  meta : List Nat
deriving DecidableEq, Inhabited

structure PartiallySignedTransaction where
  tx : CMutableTransaction
  inputs : List PSBTInput
  outputs : List PSBTOutput
deriving DecidableEq, Inhabited

/-- Wallet-resident blinding data for one outpoint, as produced by
`CWalletTx::GetNonIssuanceBlindingData`; a `value` of -1 means the amount
is unknown to the wallet. -/
structure BlindingData where
  value : Int
  value_blinding_factor : Nat
  asset : Nat
  asset_blinding_factor : Nat
deriving DecidableEq, Inhabited

/-- A wallet transaction: the transaction itself plus the wallet's
confidential blinding data per output index. -/
structure CWalletTx where
  tx : CMutableTransaction
  blindingData : Nat → BlindingData

/-- Modelled from the spec: the external collaborators of this module
(wallet index, hashing, confidential-amount verifier, signed/sane input
predicates, signing provider, output metadata extraction) are missing from
the translation unit and are abstracted as oracles.  Following the spec's
interface description, the signing provider "mutates only the PSBTInput
side-records" of the addressed input, so `signPSBTInput` (arguments:
hide-secret i.e. the do-not-sign flag, hide-key-origins flag, current
PSBT, input index, sighash type) returns the updated record for that
single input together with its per-input success flag; `produceSignature`
returns the metadata exported back into the PSBTOutput side-record. -/
structure Env where
  mapWallet : Nat → Option CWalletTx
  getHash : CMutableTransaction → Nat
  verifyAmounts : List CTxOut → CMutableTransaction → Bool
  psbtInputSigned : PSBTInput → Bool
  isSane : PSBTInput → Bool
  signPSBTInput : Bool → Bool → PartiallySignedTransaction → Nat → Int → PSBTInput × Bool
  produceSignature : Bool → CMutableTransaction → CTxOut → PSBTOutput → List Nat

inductive TransactionError where
  | OK
  | INVALID_PSBT
  | BLINDING_REQUIRED
  | UTXOS_MISSING_BALANCE_CHECK
  | VALUE_IMBALANCE
  | SIGHASH_MISMATCH
deriving DecidableEq, Inhabited

/-- Replace the input side-record at index `i` (other indices, the
transaction skeleton and the output side-records are untouched). -/
def setInput (p : PartiallySignedTransaction) (i : Nat) (inp : PSBTInput) :
    PartiallySignedTransaction :=
  { p with inputs := p.inputs.set i inp }

/-- `std::vector::resize`: truncate or pad with default elements. -/
def listResize {α : Type} (l : List α) (n : Nat) (d : α) : List α :=
  l.take n ++ List.replicate (n - l.length) d

/-- Lines 38-43: grab the CA data.  The blinding factors and the asset are
written unconditionally through the out-pointers; the value is applied
only when the provider reports a known amount (sentinel -1 = unknown). -/
def resolveWalletData (wtx : CWalletTx) (n : Nat) (input : PSBTInput) : PSBTInput :=
  let bd := wtx.blindingData n
  let input1 := { input with
    value_blinding_factor := bd.value_blinding_factor
    asset := bd.asset
    asset_blinding_factor := bd.asset_blinding_factor }
  if bd.value ≠ -1 then { input1 with value := bd.value } else input1

/-- One iteration of the `FillPSBTInputsData` loop (lines 14-48) at input
index `i`: skip already-signed inputs, sanity-check, fill the UTXO and CA
data from the wallet when the previous transaction is found, then invoke
the signing provider in metadata-only mode (hide-secret true, key origins
hidden iff `bip32derivs` is false, sighash 1). -/
def fillInputStep (env : Env) (bip32derivs : Bool) (p : PartiallySignedTransaction)
    (i : Nat) : TransactionError × PartiallySignedTransaction :=
  let txin := p.tx.vin.getD i default
  let input := p.inputs.getD i default
  if env.psbtInputSigned input then (.OK, p)
  else if env.isSane input = false then (.INVALID_PSBT, p)
  else
    let input1 :=
      match env.mapWallet txin.prevout.hash with
      | some wtx =>
        let inputA :=
          if input.non_witness_utxo = none ∧ input.witness_utxo = none then
            { input with non_witness_utxo := some wtx.tx }
          else input
        resolveWalletData wtx txin.prevout.n inputA
      | none => input
    let p1 := setInput p i input1
    let r := env.signPSBTInput true (!bip32derivs) p1 i 1
    (.OK, setInput p1 i r.1)

/-- The `FillPSBTInputsData` loop over a list of input indices, with the
C++ early `return INVALID_PSBT` modelled by stopping at the first non-OK
step and returning the PSBT as mutated so far. -/
def fillInputsLoop (env : Env) (bip32derivs : Bool) :
    PartiallySignedTransaction → List Nat →
    TransactionError × PartiallySignedTransaction
  | p, [] => (.OK, p)
  | p, i :: rest =>
    match fillInputStep env bip32derivs p i with
    | (.OK, p1) => fillInputsLoop env bip32derivs p1 rest
    | (e, p1) => (e, p1)

/-- `FillPSBTInputsData` (lines 8-51). -/
def FillPSBTInputsData (env : Env) (bip32derivs : Bool)
    (psbtx : PartiallySignedTransaction) :
    TransactionError × PartiallySignedTransaction :=
  fillInputsLoop env bip32derivs psbtx (List.range psbtx.tx.vin.length)

/-- Lines 75-83: copy each non-null commitment of the output side-record
into the corresponding transaction output slot. -/
def materializeOut (o : PSBTOutput) (out : CTxOut) : CTxOut :=
  let out1 := if o.value_commitment.isSome then { out with nValue := o.value_commitment } else out
  let out2 := if o.asset_commitment.isSome then { out1 with nAsset := o.asset_commitment } else out1
  if o.nonce_commitment.isSome then { out2 with nNonce := o.nonce_commitment } else out2

/-- Lines 87-93: copy each non-empty proof of the output side-record into
the corresponding transaction output-witness slot. -/
def materializeWit (o : PSBTOutput) (w : CTxOutWitness) : CTxOutWitness :=
  let w1 := if o.range_proof ≠ [] then { w with vchRangeproof := o.range_proof } else w
  if o.surjection_proof ≠ [] then { w1 with vchSurjectionproof := o.surjection_proof } else w1

/-- Lines 68-94 of `SignPSBT`: resize the output-witness vector to the
output count and stuff the auxiliary CA blinding data from the output
side-records into the transaction skeleton. -/
def materializeTx (psbtx : PartiallySignedTransaction) : CMutableTransaction :=
  let tx := psbtx.tx
  let wit := listResize tx.witness.vtxoutwit tx.vout.length default
  { tx with
    vout := (List.range tx.vout.length).map
      (fun i => materializeOut (psbtx.outputs.getD i default) (tx.vout.getD i default))
    witness := ⟨(List.range tx.vout.length).map
      (fun i => materializeWit (psbtx.outputs.getD i default) (wit.getD i default))⟩ }

/-- Lines 102-114: resolve the previous output of input `i` for the
balance check, cross-validating the two UTXO representations. -/
def resolveInputUtxo (env : Env) (tx : CMutableTransaction) (inp : PSBTInput)
    (i : Nat) : Except TransactionError CTxOut :=
  match inp.non_witness_utxo with
  | some nwu =>
    if env.getHash nwu ≠ (tx.vin.getD i default).prevout.hash then
      .error .INVALID_PSBT
    else
      match inp.witness_utxo with
      | some w =>
        if nwu.vout.getD (tx.vin.getD i default).prevout.n default ≠ w then
          .error .INVALID_PSBT
        else .ok (nwu.vout.getD (tx.vin.getD i default).prevout.n default)
      | none => .ok (nwu.vout.getD (tx.vin.getD i default).prevout.n default)
  | none =>
    match inp.witness_utxo with
    | some w => .ok w
    | none => .error .UTXOS_MISSING_BALANCE_CHECK

/-- Lines 99-115: gather the resolved previous outputs of the given input
indices, stopping at the first failure. -/
def gatherLoop (env : Env) (tx : CMutableTransaction) (inputs : List PSBTInput) :
    List Nat → Except TransactionError (List CTxOut)
  | [] => .ok []
  | i :: rest =>
    match resolveInputUtxo env tx (inputs.getD i default) i with
    | .error e => .error e
    | .ok u =>
      match gatherLoop env tx inputs rest with
      | .error e => .error e
      | .ok us => .ok (u :: us)

/-- Lines 97-121: the optional balance check over the materialized
transaction; `none` means the check passed or was opted out of. -/
def balancePhase (env : Env) (psbtx : PartiallySignedTransaction)
    (imbalance_ok : Bool) : Option TransactionError :=
  if imbalance_ok then none
  else
    match gatherLoop env psbtx.tx psbtx.inputs (List.range psbtx.inputs.length) with
    | .error e => some e
    | .ok inputs_utxos =>
      if env.verifyAmounts inputs_utxos psbtx.tx then none
      else some .VALUE_IMBALANCE

/-- The recorded sighash mode of an input is set (> 0) and differs from
the requested one (line 126). -/
def sighashMismatch (inp : PSBTInput) (sighash_type : Int) : Prop :=
  inp.sighash_type > 0 ∧ inp.sighash_type ≠ sighash_type

instance (inp : PSBTInput) (s : Int) : Decidable (sighashMismatch inp s) := by
  unfold sighashMismatch; infer_instance

/-- The PSBT with the transaction skeleton replaced by its pre-sign
materialization (the state of `psbtx` right after lines 63-94). -/
def materializePSBT (psbtx : PartiallySignedTransaction) : PartiallySignedTransaction :=
  { psbtx with tx := materializeTx psbtx }

/-- Replace the transaction skeleton of a PSBT (line 136's restore). -/
def setTx (p : PartiallySignedTransaction) (tx : CMutableTransaction) :
    PartiallySignedTransaction :=
  { p with tx := tx }

/-- Result of `SignPSBT` / `FillPSBT`: the error code, the PSBT as left
behind by the call, and the `complete` out-parameter. -/
structure SignResult where
  err : TransactionError
  psbt : PartiallySignedTransaction
  complete : Bool
deriving DecidableEq

/-- Lines 124-133 of `SignPSBT`: the signing loop over the given input
indices, threading the accumulating `complete` flag, aborting with
`SIGHASH_MISMATCH` at the first recorded-vs-requested sighash conflict
when actual signing was requested.  An `err` of `.OK` means the loop ran
to completion (the C++ code then falls through to the restore). -/
def signLoop (env : Env) (sign : Bool) (sighash_type : Int) :
    PartiallySignedTransaction → Bool → List Nat → SignResult
  | p, c, [] => ⟨.OK, p, c⟩
  | p, c, i :: rest =>
    if sign = true ∧ sighashMismatch (p.inputs.getD i default) sighash_type then
      ⟨.SIGHASH_MISMATCH, p, false⟩
    else
      let r := env.signPSBTInput (!sign) true p i sighash_type
      signLoop env sign sighash_type (setInput p i r.1) (c && r.2) rest

/-- `SignPSBT` (lines 53-138): blinding precondition, snapshot, CA
materialization, optional balance check, signing loop, restore of the
snapshot on the successful path only. -/
def SignPSBT (env : Env) (psbtx : PartiallySignedTransaction) (sighash_type : Int)
    (sign imbalance_ok : Bool) : SignResult :=
  if psbtx.outputs.any (fun o => o.blinding_pubkey_valid) then
    ⟨.BLINDING_REQUIRED, psbtx, false⟩
  else
    let oldtx := psbtx.tx
    let psbt1 := materializePSBT psbtx
    match balancePhase env psbt1 imbalance_ok with
    | some e => ⟨e, psbt1, false⟩
    | none =>
      let r := signLoop env sign sighash_type psbt1 true
        (List.range psbt1.tx.vin.length)
      if r.err = .SIGHASH_MISMATCH then r
      else ⟨.OK, { r.psbt with tx := oldtx }, r.complete⟩

/-- One iteration of the `FillPSBTOutputsData` loop (lines 145-156):
export the metadata produced by the signing provider (in metadata-only
mode) back into the output side-record at index `i`. -/
def fillOutputStep (env : Env) (bip32derivs : Bool)
    (p : PartiallySignedTransaction) (i : Nat) : PartiallySignedTransaction :=
  let out := p.tx.vout.getD i default
  let psbt_out := p.outputs.getD i default
  let psbt_out1 := { psbt_out with meta := env.produceSignature (!bip32derivs) p.tx out psbt_out }
  { p with outputs := p.outputs.set i psbt_out1 }

/-- `FillPSBTOutputsData` (lines 140-157). -/
def FillPSBTOutputsData (env : Env) (bip32derivs : Bool)
    (psbtx : PartiallySignedTransaction) : PartiallySignedTransaction :=
  (List.range psbtx.tx.vout.length).foldl (fillOutputStep env bip32derivs) psbtx

/-- `FillPSBTData` (lines 159-168): input filler then output filler,
short-circuiting on the input filler's error. -/
def FillPSBTData (env : Env) (bip32derivs : Bool)
    (psbtx : PartiallySignedTransaction) :
    TransactionError × PartiallySignedTransaction :=
  match FillPSBTInputsData env bip32derivs psbtx with
  | (.OK, p1) => (.OK, FillPSBTOutputsData env bip32derivs p1)
  | (e, p1) => (e, p1)

/-- `FillPSBT` (lines 171-186): the legacy combined operation, with the
balance check forced off (`imbalance_ok = true`) for the signing step. -/
def FillPSBT (env : Env) (psbtx : PartiallySignedTransaction) (sighash_type : Int)
    (sign bip32derivs : Bool) : SignResult :=
  match FillPSBTInputsData env bip32derivs psbtx with
  | (.OK, p1) =>
    let r := SignPSBT env p1 sighash_type sign true
    if r.err = .OK then
      ⟨.OK, FillPSBTOutputsData env bip32derivs r.psbt, r.complete⟩
    else r
  | (e, p1) => ⟨e, p1, false⟩

/-- The input at index `i` lacks both UTXO representations (line 112's
else-branch condition). -/
def missingAt (inp : PSBTInput) : Bool :=
  inp.non_witness_utxo.isNone && inp.witness_utxo.isNone

/-- The input carries both-or-one UTXO representations pointing at
inconsistent data: a non-witness previous transaction whose hash differs
from the input's previous-transaction reference, or a witness UTXO that is
not the corresponding output of the non-witness transaction. -/
def inconsistentAt (env : Env) (tx : CMutableTransaction) (inp : PSBTInput)
    (i : Nat) : Bool :=
  match inp.non_witness_utxo with
  | some nwu =>
    if env.getHash nwu ≠ (tx.vin.getD i default).prevout.hash then true
    else
      match inp.witness_utxo with
      | some w => decide (nwu.vout.getD (tx.vin.getD i default).prevout.n default ≠ w)
      | none => false
  | none => false


/-- The result of the signing loop of `SignPSBT` (lines 123-133), run from
the materialized PSBT with the `complete` flag freshly set to true. -/
def signLoopRun (env : Env) (psbtx : PartiallySignedTransaction) (st : Int)
    (sign : Bool) : SignResult :=
  signLoop env sign st (materializePSBT psbtx) true
    (List.range (materializePSBT psbtx).tx.vin.length)


/-! Concrete fixtures used by the witness theorems. -/

/-- A benign concrete environment: empty wallet, constant hash 0, verifier
always accepting, nothing pre-signed, everything sane, a signing provider
that records one byte of signature material and reports success. -/
def envW : Env where
  mapWallet := fun _ => none
  getHash := fun _ => 0
  verifyAmounts := fun _ _ => true
  psbtInputSigned := fun _ => false
  isSane := fun _ => true
  signPSBTInput := fun _ _ p i _ => ({ p.inputs.getD i default with sig_data := [1] }, true)
  produceSignature := fun _ _ _ _ => [2]

/-- `envW` with every input reported as already fully signed. -/
def envSigned : Env where
  mapWallet := fun _ => none
  getHash := fun _ => 0
  verifyAmounts := fun _ _ => true
  psbtInputSigned := fun _ => true
  isSane := fun _ => true
  signPSBTInput := fun _ _ p i _ => ({ p.inputs.getD i default with sig_data := [1] }, true)
  produceSignature := fun _ _ _ _ => [2]

/-- `envW` with a hash oracle that returns 5 for every transaction, so a
non-witness UTXO can never match a previous-transaction reference of 7. -/
def envC5 : Env where
  mapWallet := fun _ => none
  getHash := fun _ => 5
  verifyAmounts := fun _ _ => true
  psbtInputSigned := fun _ => false
  isSane := fun _ => true
  signPSBTInput := fun _ _ p i _ => ({ p.inputs.getD i default with sig_data := [1] }, true)
  produceSignature := fun _ _ _ _ => [2]

def inputEmpty : PSBTInput :=
  { non_witness_utxo := none, witness_utxo := none, sighash_type := 0, value := -1,
    value_blinding_factor := 0, asset := 0, asset_blinding_factor := 0, sig_data := [] }

def outW : CTxOut :=
  { nValue := some 5, nAsset := some 9, nNonce := none, scriptPubKey := [3] }

def txW : CMutableTransaction :=
  { vin := [{ prevout := { hash := 7, n := 0 } }], vout := [outW], witness := CTxWitness.mk [] }

def outputEmpty : PSBTOutput :=
  { blinding_pubkey_valid := false, value_commitment := none, asset_commitment := none,
    nonce_commitment := none, range_proof := [], surjection_proof := [], meta := [] }

/-- One input carrying a witness UTXO, one unblinded output. -/
def psbtW : PartiallySignedTransaction :=
  { tx := txW, inputs := [{ inputEmpty with witness_utxo := some outW, value := 5 }],
    outputs := [outputEmpty] }

/-- One blinded output (non-null blinding public key). -/
def psbtBlind : PartiallySignedTransaction :=
  { tx := txW, inputs := [{ inputEmpty with witness_utxo := some outW }],
    outputs := [{ outputEmpty with blinding_pubkey_valid := true }] }

/-- One input with a recorded sighash mode of 2, no outputs. -/
def psbtMismatch : PartiallySignedTransaction :=
  { tx := { vin := [{ prevout := { hash := 7, n := 0 } }], vout := [], witness := CTxWitness.mk [] },
    inputs := [{ inputEmpty with sighash_type := 2 }], outputs := [] }

/-- One input lacking both UTXO representations, no outputs. -/
def psbtMissing : PartiallySignedTransaction :=
  { tx := { vin := [{ prevout := { hash := 7, n := 0 } }], vout := [], witness := CTxWitness.mk [] },
    inputs := [inputEmpty], outputs := [] }

/-- One input whose non-witness previous transaction hashes (under the
`envC5` oracle) to 5, inconsistent with the referenced hash 7. -/
def psbtC5 : PartiallySignedTransaction :=
  { tx := { vin := [{ prevout := { hash := 7, n := 0 } }], vout := [], witness := CTxWitness.mk [] },
    inputs := [{ inputEmpty with non_witness_utxo := some txW }], outputs := [] }

/-- One input with BOTH UTXO representations present: a non-witness
previous transaction (hashing to 5 under the `envC5` oracle, inconsistent
with the referenced previous-transaction hash 7) together with the
matching witness UTXO. -/
def psbtC5both : PartiallySignedTransaction :=
  { tx := { vin := [{ prevout := { hash := 7, n := 0 } }], vout := [], witness := CTxWitness.mk [] },
    inputs := [{ inputEmpty with non_witness_utxo := some txW, witness_utxo := some outW }],
    outputs := [] }

/-- A wallet transaction whose blinding-data provider reports the unknown
sentinel for every outpoint. -/
def wtxUnknown : CWalletTx :=
  { tx := txW, blindingData := fun _ =>
      { value := -1, value_blinding_factor := 5, asset := 6, asset_blinding_factor := 7 } }

/-- An input with a previously stored value. -/
def inputV : PSBTInput := { inputEmpty with value := 42 }

/-! Helper lemmas about the embedded operations. -/

theorem getD_set_ne {α : Type} (l : List α) (a d : α) (i j : Nat) (h : i ≠ j) :
    (l.set i a).getD j d = l.getD j d := by
  simp [List.getD, List.getElem?_set_ne h]

theorem setInput_tx (p : PartiallySignedTransaction) (i : Nat) (inp : PSBTInput) :
    (setInput p i inp).tx = p.tx := rfl

theorem setInput_outputs (p : PartiallySignedTransaction) (i : Nat) (inp : PSBTInput) :
    (setInput p i inp).outputs = p.outputs := rfl

theorem materializeTx_vin (p : PartiallySignedTransaction) :
    (materializeTx p).vin = p.tx.vin := rfl

theorem setInput_getD_ne (p : PartiallySignedTransaction) (i j : Nat)
    (a d : PSBTInput) (h : i ≠ j) :
    (setInput p i a).inputs.getD j d = p.inputs.getD j d :=
  getD_set_ne p.inputs a d i j h

theorem signLoop_tx (env : Env) (s : Bool) (st : Int) :
    ∀ (l : List Nat) (p : PartiallySignedTransaction) (c : Bool),
      (signLoop env s st p c l).psbt.tx = p.tx := by
  intro l
  induction l with
  | nil => intro p c; rfl
  | cons i rest ih =>
    intro p c
    simp only [signLoop]
    by_cases h : s = true ∧ sighashMismatch (p.inputs.getD i default) st
    · rw [if_pos h]
    · rw [if_neg h, ih]
      rfl

theorem signLoop_outputs (env : Env) (s : Bool) (st : Int) :
    ∀ (l : List Nat) (p : PartiallySignedTransaction) (c : Bool),
      (signLoop env s st p c l).psbt.outputs = p.outputs := by
  intro l
  induction l with
  | nil => intro p c; rfl
  | cons i rest ih =>
    intro p c
    simp only [signLoop]
    by_cases h : s = true ∧ sighashMismatch (p.inputs.getD i default) st
    · rw [if_pos h]
    · rw [if_neg h, ih]
      rfl

theorem signLoop_err_complete (env : Env) (s : Bool) (st : Int) :
    ∀ (l : List Nat) (p : PartiallySignedTransaction) (c : Bool),
      (signLoop env s st p c l).err = .OK ∨
      ((signLoop env s st p c l).err = .SIGHASH_MISMATCH ∧
        (signLoop env s st p c l).complete = false) := by
  intro l
  induction l with
  | nil => intro p c; left; rfl
  | cons i rest ih =>
    intro p c
    simp only [signLoop]
    by_cases h : s = true ∧ sighashMismatch (p.inputs.getD i default) st
    · rw [if_pos h]
      right
      exact ⟨rfl, rfl⟩
    · rw [if_neg h]
      exact ih _ _

theorem resolve_err_cases (env : Env) (tx : CMutableTransaction) (inp : PSBTInput)
    (i : Nat) (e : TransactionError)
    (h : resolveInputUtxo env tx inp i = .error e) :
    e = .INVALID_PSBT ∨ e = .UTXOS_MISSING_BALANCE_CHECK := by
  unfold resolveInputUtxo at h
  split at h
  · split at h
    · simp at h
      subst h
      left; rfl
    · split at h
      · split at h
        · simp at h
          subst h
          left; rfl
        · simp at h
      · simp at h
  · split at h
    · simp at h
    · simp at h
      subst h
      right; rfl

theorem gather_err_cases (env : Env) (tx : CMutableTransaction)
    (inputs : List PSBTInput) :
    ∀ (l : List Nat) (e : TransactionError),
      gatherLoop env tx inputs l = .error e →
      e = .INVALID_PSBT ∨ e = .UTXOS_MISSING_BALANCE_CHECK := by
  intro l
  induction l with
  | nil =>
    intro e h
    simp [gatherLoop] at h
  | cons i rest ih =>
    intro e h
    simp only [gatherLoop] at h
    cases hr : resolveInputUtxo env tx (inputs.getD i default) i with
    | error e1 =>
      rw [hr] at h
      simp at h
      subst h
      exact resolve_err_cases env tx (inputs.getD i default) i e1 hr
    | ok u =>
      rw [hr] at h
      cases hg : gatherLoop env tx inputs rest with
      | error e2 =>
        rw [hg] at h
        simp at h
        subst h
        exact ih e2 hg
      | ok us =>
        rw [hg] at h
        simp at h

theorem balancePhase_some (env : Env) (p : PartiallySignedTransaction)
    (ib : Bool) (e : TransactionError) (h : balancePhase env p ib = some e) :
    e = .INVALID_PSBT ∨ e = .UTXOS_MISSING_BALANCE_CHECK ∨ e = .VALUE_IMBALANCE := by
  unfold balancePhase at h
  split at h
  · simp at h
  · split at h
    · rename_i e1 heq
      simp at h
      subst h
      rcases gather_err_cases env p.tx p.inputs _ e1 heq with h1 | h1
      · left; exact h1
      · right; left; exact h1
    · split at h
      · simp at h
      · simp at h
        subst h
        right; right; rfl

/-- Master case analysis for `SignPSBT`: the blinding precondition, the
balance phase, and the two outcomes of the signing loop, with the exact
result in each case. -/
theorem SignPSBT_cases (env : Env) (psbtx : PartiallySignedTransaction)
    (st : Int) (sign ib : Bool) :
    (psbtx.outputs.any (fun o => o.blinding_pubkey_valid) = true ∧
      SignPSBT env psbtx st sign ib = ⟨.BLINDING_REQUIRED, psbtx, false⟩) ∨
    (psbtx.outputs.any (fun o => o.blinding_pubkey_valid) = false ∧
      ((∃ e, balancePhase env (materializePSBT psbtx) ib = some e ∧
          SignPSBT env psbtx st sign ib = ⟨e, materializePSBT psbtx, false⟩) ∨
        (balancePhase env (materializePSBT psbtx) ib = none ∧
          (((signLoopRun env psbtx st sign).err = .SIGHASH_MISMATCH ∧
            SignPSBT env psbtx st sign ib = signLoopRun env psbtx st sign) ∨
          ((signLoopRun env psbtx st sign).err ≠ .SIGHASH_MISMATCH ∧
            SignPSBT env psbtx st sign ib =
              ⟨.OK, setTx (signLoopRun env psbtx st sign).psbt psbtx.tx,
                (signLoopRun env psbtx st sign).complete⟩))))) := by
  by_cases hb : psbtx.outputs.any (fun o => o.blinding_pubkey_valid) = true
  · left
    refine ⟨hb, ?_⟩
    simp [SignPSBT, hb]
  · right
    have hb1 : psbtx.outputs.any (fun o => o.blinding_pubkey_valid) = false := by
      simpa using hb
    refine ⟨hb1, ?_⟩
    cases hbal : balancePhase env (materializePSBT psbtx) ib with
    | some e =>
      left
      refine ⟨e, rfl, ?_⟩
      simp [SignPSBT, hb1, hbal]
    | none =>
      right
      refine ⟨rfl, ?_⟩
      by_cases hm : (signLoopRun env psbtx st sign).err = .SIGHASH_MISMATCH
      · left
        refine ⟨hm, ?_⟩
        simp only [signLoopRun] at hm
        simp [SignPSBT, hb1, hbal, signLoopRun, hm]
      · right
        refine ⟨hm, ?_⟩
        simp only [signLoopRun] at hm
        simp [SignPSBT, hb1, hbal, signLoopRun, setTx, hm]

theorem resolve_missing (env : Env) (tx : CMutableTransaction) (inp : PSBTInput)
    (i : Nat) (h : missingAt inp = true) :
    resolveInputUtxo env tx inp i = .error .UTXOS_MISSING_BALANCE_CHECK := by
  simp only [missingAt, Bool.and_eq_true, Option.isNone_iff_eq_none] at h
  simp [resolveInputUtxo, h.1, h.2]

theorem resolve_inconsistent (env : Env) (tx : CMutableTransaction) (inp : PSBTInput)
    (i : Nat) (h : inconsistentAt env tx inp i = true) :
    resolveInputUtxo env tx inp i = .error .INVALID_PSBT := by
  unfold resolveInputUtxo
  split
  · rename_i nwu hn
    simp only [inconsistentAt, hn] at h
    split
    · rfl
    · rename_i h1
      rw [if_neg h1] at h
      split
      · rename_i w hw
        simp only [hw] at h
        split
        · rfl
        · rename_i h2
          exact absurd (of_decide_eq_true h) h2
      · rename_i hw
        simp only [hw] at h
        simp at h
  · rename_i hn
    simp only [inconsistentAt, hn] at h
    simp at h

theorem resolve_ok (env : Env) (tx : CMutableTransaction) (inp : PSBTInput)
    (i : Nat) (hm : missingAt inp = false)
    (hc : inconsistentAt env tx inp i = false) :
    ∃ u, resolveInputUtxo env tx inp i = .ok u := by
  unfold resolveInputUtxo
  split
  · rename_i nwu hn
    simp only [inconsistentAt, hn] at hc
    split
    · rename_i h1
      rw [if_pos h1] at hc
      simp at hc
    · rename_i h1
      rw [if_neg h1] at hc
      split
      · rename_i w hw
        simp only [hw] at hc
        split
        · rename_i h2
          rw [decide_eq_false_iff_not, not_not] at hc
          exact absurd hc h2
        · exact ⟨_, rfl⟩
      · exact ⟨_, rfl⟩
  · rename_i hn
    split
    · rename_i w hw
      exact ⟨w, rfl⟩
    · rename_i hw
      exfalso
      simp [missingAt, hn, hw] at hm

theorem gather_ok_not_missing (env : Env) (tx : CMutableTransaction)
    (inputs : List PSBTInput) :
    ∀ (l : List Nat) (us : List CTxOut), gatherLoop env tx inputs l = .ok us →
      ∀ i ∈ l, missingAt (inputs.getD i default) = false := by
  intro l
  induction l with
  | nil => intro us h i hi; simp at hi
  | cons j rest ih =>
    intro us h i hi
    simp only [gatherLoop] at h
    cases hr : resolveInputUtxo env tx (inputs.getD j default) j with
    | error e =>
      rw [hr] at h
      simp at h
    | ok u =>
      rw [hr] at h
      cases hg : gatherLoop env tx inputs rest with
      | error e =>
        rw [hg] at h
        simp at h
      | ok us1 =>
        rcases List.mem_cons.mp hi with rfl | hi1
        · by_cases hmi : missingAt (inputs.getD i default) = true
          · rw [resolve_missing env tx _ i hmi] at hr
            simp at hr
          · simpa using hmi
        · exact ih us1 hg i hi1

theorem gather_missing (env : Env) (tx : CMutableTransaction)
    (inputs : List PSBTInput) :
    ∀ (l : List Nat),
      (∀ i ∈ l, inconsistentAt env tx (inputs.getD i default) i = false) →
      (∃ i ∈ l, missingAt (inputs.getD i default) = true) →
      gatherLoop env tx inputs l = .error .UTXOS_MISSING_BALANCE_CHECK := by
  intro l
  induction l with
  | nil => intro _ h; simp at h
  | cons j rest ih =>
    intro hc hm
    simp only [gatherLoop]
    by_cases hj : missingAt (inputs.getD j default) = true
    · rw [resolve_missing env tx _ j hj]
    · have hcj : inconsistentAt env tx (inputs.getD j default) j = false :=
        hc j (List.mem_cons_self j rest)
      obtain ⟨u, hu⟩ := resolve_ok env tx _ j (by simpa using hj) hcj
      rw [hu]
      have hm1 : ∃ i ∈ rest, missingAt (inputs.getD i default) = true := by
        rcases hm with ⟨i, hi, hmi⟩
        rcases List.mem_cons.mp hi with rfl | hi1
        · exact absurd hmi hj
        · exact ⟨i, hi1, hmi⟩
      rw [ih (fun i hi => hc i (List.mem_cons_of_mem _ hi)) hm1]

theorem gather_inconsistent (env : Env) (tx : CMutableTransaction)
    (inputs : List PSBTInput) :
    ∀ (l : List Nat),
      (∀ i ∈ l, missingAt (inputs.getD i default) = false) →
      (∃ i ∈ l, inconsistentAt env tx (inputs.getD i default) i = true) →
      gatherLoop env tx inputs l = .error .INVALID_PSBT := by
  intro l
  induction l with
  | nil => intro _ h; simp at h
  | cons j rest ih =>
    intro hnm hx
    simp only [gatherLoop]
    by_cases hj : inconsistentAt env tx (inputs.getD j default) j = true
    · rw [resolve_inconsistent env tx _ j hj]
    · have hmj : missingAt (inputs.getD j default) = false :=
        hnm j (List.mem_cons_self j rest)
      obtain ⟨u, hu⟩ := resolve_ok env tx _ j hmj (by simpa using hj)
      rw [hu]
      have hx1 : ∃ i ∈ rest, inconsistentAt env tx (inputs.getD i default) i = true := by
        rcases hx with ⟨i, hi, hxi⟩
        rcases List.mem_cons.mp hi with rfl | hi1
        · exact absurd hxi hj
        · exact ⟨i, hi1, hxi⟩
      rw [ih (fun i hi => hnm i (List.mem_cons_of_mem _ hi)) hx1]

theorem balancePhase_missing (env : Env) (p : PartiallySignedTransaction)
    (hc : ∀ i ∈ List.range p.inputs.length,
      inconsistentAt env p.tx (p.inputs.getD i default) i = false)
    (hm : ∃ i ∈ List.range p.inputs.length, missingAt (p.inputs.getD i default) = true) :
    balancePhase env p false = some .UTXOS_MISSING_BALANCE_CHECK := by
  have hg := gather_missing env p.tx p.inputs (List.range p.inputs.length) hc hm
  simp [balancePhase, hg]

theorem balancePhase_inconsistent (env : Env) (p : PartiallySignedTransaction)
    (hnm : ∀ i ∈ List.range p.inputs.length, missingAt (p.inputs.getD i default) = false)
    (hx : ∃ i ∈ List.range p.inputs.length,
      inconsistentAt env p.tx (p.inputs.getD i default) i = true) :
    balancePhase env p false = some .INVALID_PSBT := by
  have hg := gather_inconsistent env p.tx p.inputs (List.range p.inputs.length) hnm hx
  simp [balancePhase, hg]

theorem balancePhase_value_imbalance (env : Env) (p : PartiallySignedTransaction)
    (ib : Bool) (h : balancePhase env p ib = some .VALUE_IMBALANCE) :
    ib = false ∧
    ∃ us, gatherLoop env p.tx p.inputs (List.range p.inputs.length) = .ok us ∧
      env.verifyAmounts us p.tx = false := by
  unfold balancePhase at h
  split at h
  · simp at h
  · rename_i hib
    refine ⟨by simpa using hib, ?_⟩
    split at h
    · rename_i e1 heq
      simp at h
      subst h
      rcases gather_err_cases env p.tx p.inputs _ _ heq with h1 | h1 <;> simp at h1
    · rename_i us heq
      split at h
      · simp at h
      · rename_i hv
        exact ⟨us, heq, by simpa using hv⟩

theorem signLoop_first_mismatch (env : Env) (st : Int)
    (P0 : PartiallySignedTransaction) (k : Nat)
    (hk : sighashMismatch (P0.inputs.getD k default) st)
    (hmin : ∀ j, j < k → ¬ sighashMismatch (P0.inputs.getD j default) st) :
    ∀ (m i : Nat) (p : PartiallySignedTransaction) (c : Bool),
      i ≤ k → k < i + m →
      (∀ j, i ≤ j → p.inputs.getD j default = P0.inputs.getD j default) →
      (signLoop env true st p c (List.range' i m)).err = .SIGHASH_MISMATCH ∧
      (signLoop env true st p c (List.range' i m)).complete = false ∧
      ∀ j, k ≤ j →
        (signLoop env true st p c (List.range' i m)).psbt.inputs.getD j default =
          P0.inputs.getD j default := by
  intro m
  induction m with
  | zero =>
    intro i p c hik hkm
    omega
  | succ m ih =>
    intro i p c hik hkm hinv
    rw [List.range'_succ]
    simp only [signLoop]
    by_cases hie : i = k
    · subst hie
      have hmis : sighashMismatch (p.inputs.getD i default) st := by
        rw [hinv i (Nat.le_refl i)]
        exact hk
      split
      · exact ⟨rfl, rfl, fun j hj => hinv j hj⟩
      · rename_i hcond
        exact absurd ⟨by simp, hmis⟩ hcond
    · have hilt : i < k := Nat.lt_of_le_of_ne hik hie
      split
      · rename_i hcond
        exfalso
        apply hmin i hilt
        rw [← hinv i (Nat.le_refl i)]
        exact hcond.2
      · apply ih (i + 1) _ _ hilt (by omega)
        intro j hj
        rw [setInput_getD_ne p i j _ default (by omega)]
        exact hinv j (by omega)

theorem fillInputStep_frame (env : Env) (b : Bool) (p : PartiallySignedTransaction)
    (i j : Nat) (hij : j ≠ i) :
    ((fillInputStep env b p i).2).inputs.getD j default = p.inputs.getD j default := by
  unfold fillInputStep
  by_cases h1 : env.psbtInputSigned (p.inputs.getD i default) = true
  · rw [if_pos h1]
  · rw [if_neg h1]
    by_cases h2 : env.isSane (p.inputs.getD i default) = false
    · rw [if_pos h2]
    · rw [if_neg h2]
      show (setInput (setInput p i _) i _).inputs.getD j default = _
      rw [setInput, setInput]
      simp only
      rw [getD_set_ne _ _ _ i j (fun h => hij h.symm),
        getD_set_ne _ _ _ i j (fun h => hij h.symm)]

theorem fillInputStep_err (env : Env) (b : Bool) (p : PartiallySignedTransaction)
    (i : Nat) (e : TransactionError) (hp : (fillInputStep env b p i).1 = e)
    (he : e ≠ .OK) : (fillInputStep env b p i).2 = p ∧ e = .INVALID_PSBT := by
  unfold fillInputStep at hp
  by_cases h1 : env.psbtInputSigned (p.inputs.getD i default) = true
  · rw [if_pos h1] at hp
    exact absurd hp.symm he
  · rw [if_neg h1] at hp
    by_cases h2 : env.isSane (p.inputs.getD i default) = false
    · rw [if_pos h2] at hp
      refine ⟨?_, hp.symm⟩
      unfold fillInputStep
      rw [if_neg h1, if_pos h2]
    · rw [if_neg h2] at hp
      exact absurd hp.symm he

theorem fillInputsLoop_signed (env : Env) (b : Bool) (i : Nat) (v : PSBTInput)
    (hv : env.psbtInputSigned v = true) :
    ∀ (l : List Nat) (p : PartiallySignedTransaction),
      p.inputs.getD i default = v →
      ((fillInputsLoop env b p l).2).inputs.getD i default = v := by
  intro l
  induction l with
  | nil => intro p hp; exact hp
  | cons j rest ih =>
    intro p hp
    simp only [fillInputsLoop]
    by_cases hji : j = i
    · subst hji
      have hstep : fillInputStep env b p j = (.OK, p) := by
        unfold fillInputStep
        rw [hp, if_pos hv]
      rw [hstep]
      exact ih p hp
    · have hframe : ((fillInputStep env b p j).2).inputs.getD i default = v := by
        rw [fillInputStep_frame env b p j i (fun h => hji h.symm)]
        exact hp
      cases hstep : fillInputStep env b p j with
      | mk e p1 =>
        rw [hstep] at hframe
        cases e with
        | OK => exact ih p1 hframe
        | INVALID_PSBT => exact hframe
        | BLINDING_REQUIRED => exact hframe
        | UTXOS_MISSING_BALANCE_CHECK => exact hframe
        | VALUE_IMBALANCE => exact hframe
        | SIGHASH_MISMATCH => exact hframe

theorem materializePSBT_inputs (p : PartiallySignedTransaction) :
    (materializePSBT p).inputs = p.inputs := rfl

theorem materializePSBT_outputs (p : PartiallySignedTransaction) :
    (materializePSBT p).outputs = p.outputs := rfl

theorem materializePSBT_tx (p : PartiallySignedTransaction) :
    (materializePSBT p).tx = materializeTx p := rfl

/-! The claims. -/

/-- Claim C1: for every PSBT on which `SignPSBT` returns Ok, the
transaction skeleton after the call equals the skeleton before the call
(the snapshot taken at entry is restored, so the pre-sign materialization
of commitments and proofs into the transaction is fully reverted), and the
output side-records — original commitments included — are unchanged. -/
theorem C1_sign_ok_restores (env : Env) (psbtx : PartiallySignedTransaction)
    (st : Int) (sign ib : Bool)
    (h : (SignPSBT env psbtx st sign ib).err = .OK) :
    (SignPSBT env psbtx st sign ib).psbt.tx = psbtx.tx ∧
    (SignPSBT env psbtx st sign ib).psbt.outputs = psbtx.outputs := by
  rcases SignPSBT_cases env psbtx st sign ib with
    ⟨hb, heq⟩ | ⟨hb, ⟨e, hbal, heq⟩ | ⟨hbal, ⟨hm, heq⟩ | ⟨hm, heq⟩⟩⟩
  · rw [heq] at h
    simp at h
  · rw [heq] at h
    have he : e = .OK := h
    subst he
    rcases balancePhase_some env _ ib _ hbal with h1 | h1 | h1 <;> simp at h1
  · rw [heq] at h
    rw [hm] at h
    simp at h
  · rw [heq]
    refine ⟨rfl, ?_⟩
    show (signLoopRun env psbtx st sign).psbt.outputs = psbtx.outputs
    unfold signLoopRun
    rw [signLoop_outputs]
    rfl

/-- Witness for C1: a concrete call that returns Ok, with the restored
skeleton and unchanged output side-records. -/
theorem C1_witness :
    (SignPSBT envW psbtW 1 true false).err = .OK ∧
    (SignPSBT envW psbtW 1 true false).psbt.tx = psbtW.tx ∧
    (SignPSBT envW psbtW 1 true false).psbt.outputs = psbtW.outputs := by
  have h : (SignPSBT envW psbtW 1 true false).err = .OK := by decide
  have h2 := C1_sign_ok_restores envW psbtW 1 true false h
  exact ⟨h, h2.1, h2.2⟩

/-- Claim C2: a PSBT with at least one output whose blinding public key is
non-null makes `SignPSBT` return BlindingRequired with the PSBT entirely
unmutated (in particular no input's signature material changes and the
skeleton is untouched) and `complete` false. -/
theorem C2_blinding_required (env : Env) (psbtx : PartiallySignedTransaction)
    (st : Int) (sign ib : Bool) (o : PSBTOutput)
    (ho : o ∈ psbtx.outputs) (hv : o.blinding_pubkey_valid = true) :
    SignPSBT env psbtx st sign ib = ⟨.BLINDING_REQUIRED, psbtx, false⟩ := by
  have hb : psbtx.outputs.any (fun o => o.blinding_pubkey_valid) = true :=
    List.any_eq_true.mpr ⟨o, ho, hv⟩
  simp [SignPSBT, hb]

/-- Witness for C2 at a concrete PSBT with a blinded output. -/
theorem C2_witness :
    psbtBlind.outputs.getD 0 default ∈ psbtBlind.outputs ∧
    (psbtBlind.outputs.getD 0 default).blinding_pubkey_valid = true ∧
    SignPSBT envW psbtBlind 1 true false = ⟨.BLINDING_REQUIRED, psbtBlind, false⟩ := by
  refine ⟨by decide, by decide, ?_⟩
  exact C2_blinding_required envW psbtBlind 1 true false
    (psbtBlind.outputs.getD 0 default) (by decide) (by decide)

/-- Claim C10: whenever `SignPSBT` returns an error code other than Ok,
the `complete` out-parameter is false; `complete = true` is observable
only together with an Ok return. -/
theorem C10_error_implies_incomplete (env : Env)
    (psbtx : PartiallySignedTransaction) (st : Int) (sign ib : Bool)
    (h : (SignPSBT env psbtx st sign ib).err ≠ .OK) :
    (SignPSBT env psbtx st sign ib).complete = false := by
  rcases SignPSBT_cases env psbtx st sign ib with
    ⟨hb, heq⟩ | ⟨hb, ⟨e, hbal, heq⟩ | ⟨hbal, ⟨hm, heq⟩ | ⟨hm, heq⟩⟩⟩
  · rw [heq]
  · rw [heq]
  · rw [heq]
    rcases signLoop_err_complete env sign st
        (List.range (materializePSBT psbtx).tx.vin.length)
        (materializePSBT psbtx) true with h1 | h1
    · exfalso
      have hm1 : (signLoop env sign st (materializePSBT psbtx) true
          (List.range (materializePSBT psbtx).tx.vin.length)).err =
            .SIGHASH_MISMATCH := hm
      rw [h1] at hm1
      simp at hm1
    · exact h1.2
  · rw [heq] at h
    simp at h

/-- Witness for C10 at a concrete erroring call. -/
theorem C10_witness :
    (SignPSBT envW psbtBlind 1 true false).err ≠ .OK ∧
    (SignPSBT envW psbtBlind 1 true false).complete = false := by
  have h : (SignPSBT envW psbtBlind 1 true false).err ≠ .OK := by decide
  exact ⟨h, C10_error_implies_incomplete envW psbtBlind 1 true false h⟩

/-- Claim C3: with actual signing requested, if the outputs pass the
blinding precondition and the balance phase raises no error (so the
signing loop is reached), and input `k` is the first input, in ascending
index order, whose recorded sighash mode is set (> 0) and differs from the
requested mode, then `SignPSBT` returns SighashMismatch with `complete`
false, and every input side-record at an index greater than or equal to
`k` is left exactly as it was at entry — no such input is signed (inputs
with smaller indices may already have been signed). -/
theorem C3_sighash_mismatch_first (env : Env) (psbtx : PartiallySignedTransaction)
    (sighash_type : Int) (ib : Bool) (k : Nat)
    (hb : psbtx.outputs.any (fun o => o.blinding_pubkey_valid) = false)
    (hbal : balancePhase env (materializePSBT psbtx) ib = none)
    (hklt : k < psbtx.tx.vin.length)
    (hk : sighashMismatch (psbtx.inputs.getD k default) sighash_type)
    (hmin : ∀ j, j < k → ¬ sighashMismatch (psbtx.inputs.getD j default) sighash_type) :
    (SignPSBT env psbtx sighash_type true ib).err = .SIGHASH_MISMATCH ∧
    (SignPSBT env psbtx sighash_type true ib).complete = false ∧
    ∀ j, k ≤ j →
      (SignPSBT env psbtx sighash_type true ib).psbt.inputs.getD j default =
        psbtx.inputs.getD j default := by
  have hloop := signLoop_first_mismatch env sighash_type psbtx k hk hmin
    psbtx.tx.vin.length 0 (materializePSBT psbtx) true (Nat.zero_le k) (by omega)
    (fun j hj => rfl)
  have hrun : signLoopRun env psbtx sighash_type true =
      signLoop env true sighash_type (materializePSBT psbtx) true
        (List.range' 0 psbtx.tx.vin.length) := by
    show signLoop env true sighash_type (materializePSBT psbtx) true
        (List.range (materializePSBT psbtx).tx.vin.length) = _
    rw [List.range_eq_range']
    exact rfl
  rcases SignPSBT_cases env psbtx sighash_type true ib with
    ⟨hb1, _⟩ | ⟨_, ⟨e, hbal1, _⟩ | ⟨_, ⟨hm, heq⟩ | ⟨hm, heq⟩⟩⟩
  · rw [hb] at hb1
    exact absurd hb1 (by simp)
  · rw [hbal] at hbal1
    exact absurd hbal1 (by simp)
  · rw [heq, hrun]
    exact ⟨hloop.1, hloop.2.1, hloop.2.2⟩
  · exfalso
    apply hm
    rw [hrun]
    exact hloop.1

/-- Witness for C3 at a concrete PSBT whose single input carries recorded
sighash mode 2 while mode 1 is requested. -/
theorem C3_witness :
    (SignPSBT envW psbtMismatch 1 true true).err = .SIGHASH_MISMATCH ∧
    (SignPSBT envW psbtMismatch 1 true true).complete = false ∧
    (SignPSBT envW psbtMismatch 1 true true).psbt.inputs.getD 0 default =
      psbtMismatch.inputs.getD 0 default := by
  have h := C3_sighash_mismatch_first envW psbtMismatch 1 true 0 (by decide)
    (by decide) (by decide) (by decide)
    (fun j hj => absurd hj (Nat.not_lt_zero j))
  exact ⟨h.1, h.2.1, h.2.2 0 (Nat.le_refl 0)⟩

/-- Claim C9: when `SignPSBT` returns SighashMismatch, the transaction
skeleton is left in its materialized state — the output-witness vector
resized to the output count and the side-record commitments and proofs
still projected into the transaction — because the snapshot taken at entry
is restored only on the path that returns Ok. -/
theorem C9_mismatch_leaves_materialized (env : Env)
    (psbtx : PartiallySignedTransaction) (st : Int) (sign ib : Bool)
    (h : (SignPSBT env psbtx st sign ib).err = .SIGHASH_MISMATCH) :
    (SignPSBT env psbtx st sign ib).psbt.tx = materializeTx psbtx := by
  rcases SignPSBT_cases env psbtx st sign ib with
    ⟨hb, heq⟩ | ⟨hb, ⟨e, hbal, heq⟩ | ⟨hbal, ⟨hm, heq⟩ | ⟨hm, heq⟩⟩⟩
  · rw [heq] at h
    simp at h
  · rw [heq] at h
    have he : e = .SIGHASH_MISMATCH := h
    subst he
    rcases balancePhase_some env _ ib _ hbal with h1 | h1 | h1 <;> simp at h1
  · rw [heq]
    show (signLoopRun env psbtx st sign).psbt.tx = materializeTx psbtx
    unfold signLoopRun
    rw [signLoop_tx]
    rfl
  · rw [heq] at h
    simp at h

/-- Witness for C9 at a concrete call returning SighashMismatch. -/
theorem C9_witness :
    (SignPSBT envW psbtMismatch 1 true true).err = .SIGHASH_MISMATCH ∧
    (SignPSBT envW psbtMismatch 1 true true).psbt.tx = materializeTx psbtMismatch := by
  have h : (SignPSBT envW psbtMismatch 1 true true).err = .SIGHASH_MISMATCH := by decide
  exact ⟨h, C9_mismatch_leaves_materialized envW psbtMismatch 1 true true h⟩

/-- Claim C4: with a balance check requested (`imbalance_ok = false`) and
the blinding precondition met, (a) when some input lacks both UTXO
representations and no input is cross-inconsistent, `SignPSBT` returns
UtxosMissingForBalanceCheck; and (b) ValueImbalance is returned only when
every input's previous output resolved (in particular none was missing)
and the external confidential-amount verifier rejected the materialized
transaction — so a missing input can never produce ValueImbalance. -/
theorem C4_missing_never_imbalance (env : Env) (psbtx : PartiallySignedTransaction)
    (st : Int) (sign : Bool)
    (hb : psbtx.outputs.any (fun o => o.blinding_pubkey_valid) = false) :
    ((∀ i, i < psbtx.inputs.length →
        inconsistentAt env (materializeTx psbtx) (psbtx.inputs.getD i default) i = false) →
      (∃ i, i < psbtx.inputs.length ∧ missingAt (psbtx.inputs.getD i default) = true) →
      (SignPSBT env psbtx st sign false).err = .UTXOS_MISSING_BALANCE_CHECK) ∧
    ((SignPSBT env psbtx st sign false).err = .VALUE_IMBALANCE →
      (∀ i, i < psbtx.inputs.length → missingAt (psbtx.inputs.getD i default) = false) ∧
      ∃ us, gatherLoop env (materializeTx psbtx) psbtx.inputs
          (List.range psbtx.inputs.length) = .ok us ∧
        env.verifyAmounts us (materializeTx psbtx) = false) := by
  constructor
  · intro hc hm
    have hbal : balancePhase env (materializePSBT psbtx) false =
        some .UTXOS_MISSING_BALANCE_CHECK := by
      apply balancePhase_missing
      · intro i hi
        have hi1 : i < psbtx.inputs.length := by
          simpa [materializePSBT_inputs] using hi
        exact hc i hi1
      · rcases hm with ⟨i, hi, hmi⟩
        refine ⟨i, ?_, hmi⟩
        simpa [materializePSBT_inputs] using hi
    rcases SignPSBT_cases env psbtx st sign false with
      ⟨hb1, _⟩ | ⟨_, ⟨e, hbal1, heq⟩ | ⟨hbal1, _⟩⟩
    · rw [hb] at hb1
      exact absurd hb1 (by simp)
    · rw [hbal] at hbal1
      have he := Option.some.inj hbal1
      rw [heq]
      exact he.symm
    · rw [hbal] at hbal1
      exact absurd hbal1 (by simp)
  · intro h
    rcases SignPSBT_cases env psbtx st sign false with
      ⟨hb1, heq⟩ | ⟨_, ⟨e, hbal1, heq⟩ | ⟨hbal1, ⟨hm, heq⟩ | ⟨hm, heq⟩⟩⟩
    · rw [heq] at h
      simp at h
    · rw [heq] at h
      have he : e = .VALUE_IMBALANCE := h
      subst he
      obtain ⟨-, us, hg, hverify⟩ :=
        balancePhase_value_imbalance env (materializePSBT psbtx) false hbal1
      constructor
      · intro i hi
        exact gather_ok_not_missing env (materializePSBT psbtx).tx
          (materializePSBT psbtx).inputs _ us hg i (List.mem_range.mpr hi)
      · exact ⟨us, hg, hverify⟩
    · rw [heq] at h
      rw [hm] at h
      simp at h
    · rw [heq] at h
      simp at h

/-- Witness for C4 at a concrete PSBT whose single input lacks both UTXO
representations: the call yields UtxosMissingForBalanceCheck, and in
particular not ValueImbalance. -/
theorem C4_witness :
    (SignPSBT envW psbtMissing 1 true false).err = .UTXOS_MISSING_BALANCE_CHECK ∧
    (SignPSBT envW psbtMissing 1 true false).err ≠ .VALUE_IMBALANCE := by
  have h := (C4_missing_never_imbalance envW psbtMissing 1 true (by decide)).1
    (by decide) ⟨0, by decide, by decide⟩
  refine ⟨h, ?_⟩
  rw [h]
  simp

/-- Claim C5 counterexample: a concrete PSBT whose single input has both
UTXO representations present — a non-witness previous transaction and a
witness UTXO — pointing to inconsistent data (the non-witness
transaction's hash, 5 under the `envC5` oracle, differs from the input's
previous-transaction reference 7).  The claim says such a PSBT "always
yields InvalidPsbt before any signing is attempted", yet when the caller
opts out of the balance check (`imbalance_ok = true`) the cross-validation
never runs: `SignPSBT` returns Ok, not InvalidPsbt, and the input is
signed (its side-record changes). -/
theorem C5_counterexample :
    (psbtC5both.inputs.getD 0 default).non_witness_utxo = some txW ∧
    (psbtC5both.inputs.getD 0 default).witness_utxo = some outW ∧
    envC5.getHash txW ≠ (psbtC5both.tx.vin.getD 0 default).prevout.hash ∧
    inconsistentAt envC5 (materializeTx psbtC5both)
      (psbtC5both.inputs.getD 0 default) 0 = true ∧
    (SignPSBT envC5 psbtC5both 1 true true).err = .OK ∧
    (SignPSBT envC5 psbtC5both 1 true true).psbt.inputs ≠ psbtC5both.inputs := by
  refine ⟨rfl, rfl, by decide, by decide, by decide, by decide⟩

/-- Claim C5 (amended): when the balance check is requested
(`imbalance_ok = false`), the outputs pass the blinding precondition, and
no input lacks both UTXO representations, a PSBT containing an input whose
two UTXO representations are present but inconsistent makes `SignPSBT`
return InvalidPsbt before any signing is attempted: every input
side-record is left exactly as at entry. -/
theorem C5_amended_inconsistent (env : Env) (psbtx : PartiallySignedTransaction)
    (st : Int) (sign : Bool) (k : Nat)
    (hb : psbtx.outputs.any (fun o => o.blinding_pubkey_valid) = false)
    (hnm : ∀ i, i < psbtx.inputs.length → missingAt (psbtx.inputs.getD i default) = false)
    (hklt : k < psbtx.inputs.length)
    (hk : inconsistentAt env (materializeTx psbtx) (psbtx.inputs.getD k default) k = true) :
    (SignPSBT env psbtx st sign false).err = .INVALID_PSBT ∧
    (SignPSBT env psbtx st sign false).psbt.inputs = psbtx.inputs := by
  have hbal : balancePhase env (materializePSBT psbtx) false = some .INVALID_PSBT := by
    apply balancePhase_inconsistent
    · intro i hi
      have hi1 : i < psbtx.inputs.length := by
        simpa [materializePSBT_inputs] using hi
      exact hnm i hi1
    · exact ⟨k, List.mem_range.mpr hklt, hk⟩
  rcases SignPSBT_cases env psbtx st sign false with
    ⟨hb1, _⟩ | ⟨_, ⟨e, hbal1, heq⟩ | ⟨hbal1, _⟩⟩
  · rw [hb] at hb1
    exact absurd hb1 (by simp)
  · rw [hbal] at hbal1
    have he := Option.some.inj hbal1
    rw [heq]
    exact ⟨he.symm, rfl⟩
  · rw [hbal] at hbal1
    exact absurd hbal1 (by simp)

/-- Witness for the amended C5 at a concrete PSBT with an inconsistent
non-witness UTXO and the balance check requested. -/
theorem C5_witness :
    (SignPSBT envC5 psbtC5 1 true false).err = .INVALID_PSBT ∧
    (SignPSBT envC5 psbtC5 1 true false).psbt.inputs = psbtC5.inputs := by
  exact C5_amended_inconsistent envC5 psbtC5 1 true 0 (by decide) (by decide)
    (by decide) (by decide)

/-- Claim C6: an input reported as already fully signed is skipped
entirely by the Input Filler, so `FillPSBTInputsData` leaves its whole
side-record — UTXO representation fields and confidential blinding fields
(value, value-blinding factor, asset, asset-blinding factor) included —
unchanged; in particular a second invocation is idempotent on it. -/
theorem C6_filler_skips_signed (env : Env) (b : Bool)
    (psbtx : PartiallySignedTransaction) (i : Nat)
    (hs : env.psbtInputSigned (psbtx.inputs.getD i default) = true) :
    ((FillPSBTInputsData env b psbtx).2).inputs.getD i default =
      psbtx.inputs.getD i default :=
  fillInputsLoop_signed env b i (psbtx.inputs.getD i default) hs
    (List.range psbtx.tx.vin.length) psbtx rfl

/-- Witness for C6 under an environment reporting every input signed. -/
theorem C6_witness :
    envSigned.psbtInputSigned (psbtW.inputs.getD 0 default) = true ∧
    ((FillPSBTInputsData envSigned true psbtW).2).inputs.getD 0 default =
      psbtW.inputs.getD 0 default :=
  ⟨rfl, C6_filler_skips_signed envSigned true psbtW 0 rfl⟩

/-- Claim C7: in the Input Filler's wallet-resolution step, the resolved
confidential value is written into the input's value field only when the
blinding-data provider reports a known value; when the provider returns
the sentinel -1 (unknown), the input's previously stored value is kept. -/
theorem C7_value_sentinel (wtx : CWalletTx) (n : Nat) (input : PSBTInput) :
    ((wtx.blindingData n).value = -1 →
      (resolveWalletData wtx n input).value = input.value) ∧
    ((wtx.blindingData n).value ≠ -1 →
      (resolveWalletData wtx n input).value = (wtx.blindingData n).value) := by
  constructor
  · intro h
    simp [resolveWalletData, h]
  · intro h
    simp [resolveWalletData, h]

/-- Witness for C7: an unknown sentinel does not overwrite the stored
value 42. -/
theorem C7_witness :
    (wtxUnknown.blindingData 0).value = -1 ∧
    (resolveWalletData wtxUnknown 0 inputV).value = inputV.value :=
  ⟨rfl, (C7_value_sentinel wtxUnknown 0 inputV).1 rfl⟩

/-- Claim C8: the legacy combined operation `FillPSBT` is exactly the
composition Input Filler, then Signer with the balance check forced off
(`imbalance_ok = true`), then Output Filler, short-circuiting on the first
non-OK result: an Input Filler error is returned as-is with `complete`
false and nothing else runs; a Signer error is returned as-is (Output
Filler does not run); otherwise the result is Ok with the Output Filler
applied to the Signer's PSBT. -/
theorem C8_fill_is_composition (env : Env) (psbtx : PartiallySignedTransaction)
    (st : Int) (sign b : Bool) :
    (∀ e p1, FillPSBTInputsData env b psbtx = (e, p1) → e ≠ .OK →
      FillPSBT env psbtx st sign b = ⟨e, p1, false⟩) ∧
    (∀ p1, FillPSBTInputsData env b psbtx = (.OK, p1) →
      (SignPSBT env p1 st sign true).err ≠ .OK →
      FillPSBT env psbtx st sign b = SignPSBT env p1 st sign true) ∧
    (∀ p1, FillPSBTInputsData env b psbtx = (.OK, p1) →
      (SignPSBT env p1 st sign true).err = .OK →
      FillPSBT env psbtx st sign b =
        ⟨.OK, FillPSBTOutputsData env b (SignPSBT env p1 st sign true).psbt,
          (SignPSBT env p1 st sign true).complete⟩) := by
  refine ⟨?_, ?_, ?_⟩
  · intro e p1 hf he
    cases e with
    | OK => exact absurd rfl he
    | INVALID_PSBT => simp only [FillPSBT, hf]
    | BLINDING_REQUIRED => simp only [FillPSBT, hf]
    | UTXOS_MISSING_BALANCE_CHECK => simp only [FillPSBT, hf]
    | VALUE_IMBALANCE => simp only [FillPSBT, hf]
    | SIGHASH_MISMATCH => simp only [FillPSBT, hf]
  · intro p1 hf hs
    simp only [FillPSBT, hf]
    rw [if_neg hs]
  · intro p1 hf hs
    simp only [FillPSBT, hf]
    rw [if_pos hs]

/-- Witness for C8 on a concrete PSBT where filler and signer succeed. -/
theorem C8_witness :
    FillPSBT envW psbtW 1 true true =
      ⟨.OK, FillPSBTOutputsData envW true
          (SignPSBT envW (FillPSBTInputsData envW true psbtW).2 1 true true).psbt,
        (SignPSBT envW (FillPSBTInputsData envW true psbtW).2 1 true true).complete⟩ :=
  (C8_fill_is_composition envW psbtW 1 true true).2.2
    (FillPSBTInputsData envW true psbtW).2 (by decide) (by decide)
